import Mathlib

set_option maxRecDepth 8000

/-!
Shallow embedding of the per-room chat actor of `src/Worker/src/chatRoom.js`.

JavaScript objects used as string-keyed maps become ordered association
lists (`JsMap`); `Date.now()` becomes an explicit `now : Int` parameter
threaded through each operation; the durable-object storage becomes the
`Storage` record, passed in and returned explicitly by every operation.
The `Math.random()` suffix of generated message ids is replaced by a
deterministic stand-in (ids are opaque to every property proved here).
-/

/-- A JavaScript object used as a string-keyed map: an ordered association list. -/
abbrev JsMap (α : Type) : Type := List (String × α)

/-- `obj[k]` — the value of the first entry whose key is `k`. -/
def jsGet {α : Type} (m : JsMap α) (k : String) : Option α :=
  (m.find? (fun p => p.1 == k)).map Prod.snd

/-- `obj[k] = v` — updates the entry in place when the key exists, else appends. -/
def jsSet {α : Type} (m : JsMap α) (k : String) (v : α) : JsMap α :=
  if m.any (fun p => p.1 == k) then
    m.map (fun p => if p.1 == k then (k, v) else p)
  else m ++ [(k, v)]

/-- `delete obj[k]`. -/
def jsDelete {α : Type} (m : JsMap α) (k : String) : JsMap α :=
  m.filter (fun p => p.1 != k)

/-- `Object.keys(obj)`. -/
def jsKeys {α : Type} (m : JsMap α) : List String := m.map Prod.fst

/-- A room-chat message object `{id, user, text, time, system?}`. -/
structure Msg where
  id : String
  user : String
  text : String
  time : Int
  system : Bool
deriving DecidableEq

/-- A private message object `{id, from, to, text, time}` (fields `from`/`to`
renamed `fromUser`/`toUser`, `from` being reserved in Lean). -/
structure PmMsg where
  id : String
  fromUser : String
  toUser : String
  text : String
  time : Int
deriving DecidableEq

/-- A ban record `{bannedBy, reason, timestamp, expires}`; `expires = none`
models the JavaScript `null` (permanent ban). -/
structure Ban where
  bannedBy : String
  reason : String
  timestamp : Int
  expires : Option Int
deriving DecidableEq

/-- A kick record `{kickedBy, reason, timestamp, expires}`. -/
structure KickRec where
  kickedBy : String
  reason : String
  timestamp : Int
  expires : Int
deriving DecidableEq

/-- A spam-window entry `{text, time}` stored under `user_messages:<user>`. -/
structure SpamEntry where
  text : String
  time : Int
deriving DecidableEq

/-- The durable storage of one actor instance, split by key prefix:
`messages:<room>`, `pm:<conversation>`, `users:<room>`, `kicked_users:<room>`,
`banned_users`, `user_messages:<user>`. -/
structure Storage where
  messages : JsMap (List Msg)
  pm : JsMap (List PmMsg)
  users : JsMap (JsMap Int)
  kicked : JsMap (JsMap KickRec)
  banned : JsMap Ban
  spam : JsMap (List SpamEntry)
deriving DecidableEq

def emptyStorage : Storage := ⟨[], [], [], [], [], []⟩

/-- The worker environment: `env.AUTH_SECRET` (a Cloudflare secret, possibly unset). -/
structure Env where
  authSecret : Option String
deriving DecidableEq

/-- The request headers the actor consults: `X-Auth-Token` and `X-Auth-User`. -/
structure Req where
  authToken : Option String
  authUser : Option String
deriving DecidableEq

/-- JavaScript truthiness of an optional string: absent and `""` are falsy. -/
def truthy : Option String → Option String
  | none => none
  | some s => if s == "" then none else some s

/-- `String.prototype.toLowerCase()`, modelled codepoint-wise (the
identifiers this program lowercases are ASCII); written over the character
list so that proofs can evaluate it. -/
def String.jsToLower (s : String) : String := ⟨s.data.map Char.toLower⟩

/-- `isModerator` (line 166): only the fixed identity `nellowtcs`
(case-insensitively) is a moderator. -/
def isModerator (username : String) : Bool :=
  username.jsToLower == "nellowtcs"

/-- `authenticateUser` (line 369): the `X-Auth-Token` header must be truthy and
equal the configured secret; the asserted `X-Auth-User` (or `null`) is returned. -/
def authenticateUser (env : Env) (req : Req) : Option String :=
  match truthy req.authToken, truthy env.authSecret with
  | some t, some s => if t == s then truthy req.authUser else none
  | _, _ => none

/-- `verifyUserPermission` (line 395): with a configured secret, authentication
is required and (when `requireModerator`) the authenticated identity must be a
moderator; with no secret configured the client-supplied user is returned
unchecked. `Except.error` models the thrown `Error`. -/
def verifyUserPermission (env : Env) (req : Req) (targetUser : String)
    (requireModerator : Bool) : Except String String :=
  let authenticatedUser := authenticateUser env req
  match truthy env.authSecret with
  | some _ =>
    match authenticatedUser with
    | none => Except.error "Authentication required"
    | some userToCheck =>
      if requireModerator && !(isModerator userToCheck) then
        Except.error "Moderator privileges required"
      else
        Except.ok userToCheck
  | none => Except.ok targetUser

/-- `isKicked` (line 171): lazy-expiry lookup of `kicked_users:<room>` keyed by
the lowercased username; an expired record is deleted and reported absent. -/
def isKicked (st : Storage) (username room : String) (now : Int) : Bool × Storage :=
  let kickedUsers := (jsGet st.kicked room).getD []
  match jsGet kickedUsers username.jsToLower with
  | none => (false, st)
  | some kick =>
    if now > kick.expires then
      (false, { st with kicked := jsSet st.kicked room (jsDelete kickedUsers username.jsToLower) })
    else
      (true, st)

/-- `isBanned` (line 188): lazy-expiry lookup of `banned_users` keyed by the
lowercased username; `expires = none` (null) never expires. -/
def isBanned (st : Storage) (username : String) (now : Int) : Bool × Storage :=
  match jsGet st.banned username.jsToLower with
  | none => (false, st)
  | some ban =>
    match ban.expires with
    | some e =>
      if now > e then
        (false, { st with banned := jsDelete st.banned username.jsToLower })
      else
        (true, st)
    | none => (true, st)

/-- `arr.slice(-n)` — the last `n` elements. -/
def sliceLast {α : Type} (n : Nat) (l : List α) : List α :=
  l.drop (l.length - n)

/-- The moderation verdict `{allowed, reason?}`. -/
structure ModResult where
  allowed : Bool
  reason : Option String
deriving DecidableEq

/-- `moderateMessage` (line 204): ban check, then kick check, then the
duplicate check over the spam window restricted to entries strictly younger
than 30 s; on allow the filtered window plus the new entry (last 10 kept)
is persisted. -/
def moderateMessage (st : Storage) (text user room : String) (now : Int) :
    ModResult × Storage :=
  let (b, st) := isBanned st user now
  if b then
    (⟨false, some "User is banned"⟩, st)
  else
    let (k, st) := isKicked st user room now
    if k then
      (⟨false, some "User is kicked from this room"⟩, st)
    else
      let userMessages := (jsGet st.spam user).getD []
      let recentMessages := userMessages.filter (fun msg => now - msg.time < 30000)
      if recentMessages.any (fun msg => msg.text == text) then
        (⟨false, some "Spam detected"⟩, st)
      else
        (⟨true, none⟩,
         { st with spam := jsSet st.spam user (sliceLast 10 (recentMessages ++ [⟨text, now⟩])) })

/-- `updateUserPresence` (line 127): rejected (error, storage untouched) when
the user is kicked from the room, else sets `users[username] = now`. -/
def updateUserPresence (st : Storage) (room username : String) (now : Int) :
    Except String (JsMap Int) × Storage :=
  let (k, st) := isKicked st username room now
  if k then
    (Except.error "User is kicked from this room", st)
  else
    let users := (jsGet st.users room).getD []
    let users := jsSet users username now
    (Except.ok users, { st with users := jsSet st.users room users })

/-- `getUsers` (line 140): filters out entries not seen within 60 s,
persists the filtered map when anything was dropped (deleting the key when
nothing is left), and returns the remaining usernames. -/
def getUsers (st : Storage) (room : String) (now : Int) : List String × Storage :=
  let users := (jsGet st.users room).getD []
  let activeUsers := users.filter (fun p => now - p.2 < 60000)
  let st :=
    if activeUsers.length ≠ users.length then
      if activeUsers.length > 0 then
        { st with users := jsSet st.users room activeUsers }
      else
        { st with users := jsDelete st.users room }
    else st
  (jsKeys activeUsers, st)

/-- The outcome of `deleteMessage`, tagged by response class. -/
inductive DelOutcome
  | authError (msg : String)
  | notFound
  | unauthorized
  | deleted (sys : Msg)
deriving DecidableEq

/-- HTTP status of each `deleteMessage` outcome (the thrown auth error is
caught and surfaced as 403). -/
def delStatus : DelOutcome → Nat
  | .authError _ => 403
  | .notFound => 404
  | .unauthorized => 403
  | .deleted _ => 200

/-- The `substring(0, 50) + '...'` truncation applied to long deleted texts. -/
def truncate50 (s : String) : String :=
  if s.length > 50 then s.take 50 ++ "..." else s

/-- The synthetic system message appended by `deleteMessage` (line 454). -/
def sysDelMsg (originalUser verifiedUser : String) (now : Int) : Msg :=
  { id := "sys_del_" ++ toString now
    user := "*** System ***"
    text := "Message from " ++ originalUser ++ " deleted by " ++ verifiedUser ++
      (if originalUser != verifiedUser then " (moderator action)" else "")
    time := now
    system := true }

/-- `deleteMessage` (line 422): permission verification, 404 when the id is
absent, 403 unless the verified requester owns the message or is a moderator,
else the message is spliced out and a system message appended. -/
def deleteMessage (env : Env) (req : Req) (st : Storage)
    (room messageId user : String) (now : Int) : DelOutcome × Storage :=
  match verifyUserPermission env req user false with
  | .error e => (.authError e, st)
  | .ok verifiedUser =>
    let messages := (jsGet st.messages room).getD []
    match messages.find? (fun msg => msg.id == messageId) with
    | none => (.notFound, st)
    | some message =>
      let isMod := isModerator verifiedUser
      if message.user != verifiedUser && !isMod then
        (.unauthorized, st)
      else
        let _originalText := truncate50 message.text
        let remaining := messages.eraseP (fun msg => msg.id == messageId)
        let systemMessage := sysDelMsg message.user verifiedUser now
        (.deleted systemMessage,
         { st with messages := jsSet st.messages room (remaining ++ [systemMessage]) })

/-- `banUser` (line 553): upserts a ban keyed by the lowercased target;
a falsy duration (absent or 0 minutes) means a permanent ban. -/
def banUser (st : Storage) (targetUser moderator reason : String)
    (durationMinutes : Option Int) (now : Int) : Nat × Storage :=
  let expires : Option Int :=
    match durationMinutes with
    | some d => if d == 0 then none else some (now + d * 60 * 1000)
    | none => none
  let ban : Ban := ⟨moderator, reason, now, expires⟩
  (200, { st with banned := jsSet st.banned targetUser.jsToLower ban })

/-- `unbanUser` (line 569): removes the record and answers 200 when one
exists, else answers 400 (`'User not banned'`). -/
def unbanUser (st : Storage) (targetUser moderator : String) : Nat × Storage :=
  match jsGet st.banned targetUser.jsToLower with
  | some _ => (200, { st with banned := jsDelete st.banned targetUser.jsToLower })
  | none => (400, st)

/-- The synthetic system message appended by `kickUser` (line 605). -/
def sysKickMsg (targetUser moderator reason : String) (now : Int) : Msg :=
  { id := "sys_kick_" ++ toString now
    user := "*** System ***"
    text := targetUser ++ " was kicked by " ++ moderator ++
      (if reason != "" then " (" ++ reason ++ ")" else "") ++ " - banned for 5 minutes"
    time := now
    system := true }

/-- `kickUser` (line 581): writes a 5-minute kick record keyed by the
lowercased target, deletes the target's presence entry (exact key), and
appends a system message to the room log (with no cap check). -/
def kickUser (st : Storage) (room targetUser moderator reason : String)
    (now : Int) : Nat × Storage :=
  let kickedUsers := (jsGet st.kicked room).getD []
  let kickedUsers := jsSet kickedUsers targetUser.jsToLower
    ⟨moderator, reason, now, now + 5 * 60 * 1000⟩
  let st := { st with kicked := jsSet st.kicked room kickedUsers }
  let users := (jsGet st.users room).getD []
  let users := jsDelete users targetUser
  let st := { st with users := jsSet st.users room users }
  let messages := (jsGet st.messages room).getD []
  let systemMessage := sysKickMsg targetUser moderator reason now
  (200, { st with messages := jsSet st.messages room (messages ++ [systemMessage]) })

/-- The parsed `action` field of a moderation POST body. -/
inductive ModAction
  | ban
  | unban
  | kick
  | addMod
  | removeMod
deriving DecidableEq

/-- `handleModeration` (line 514), POST branch: permission verification with
`requireModerator = true` (a thrown error is caught as 403, storage
untouched), then dispatch on the action; `addMod`/`removeMod` always answer
403 without touching storage. -/
def handleModeration (env : Env) (req : Req) (st : Storage) (room user : String)
    (action : ModAction) (targetUser reason : String) (duration : Option Int)
    (now : Int) : Nat × Storage :=
  match verifyUserPermission env req user true with
  | .error _ => (403, st)
  | .ok verifiedUser =>
    match action with
    | .ban => banUser st targetUser verifiedUser reason duration now
    | .unban => unbanUser st targetUser verifiedUser
    | .kick => kickUser st room targetUser verifiedUser reason now
    | .addMod => (403, st)
    | .removeMod => (403, st)

/-- The message object built by the POST branch of `fetch` (line 311); a
falsy client-supplied id is replaced by a generated one (`Math.random`
suffix abstracted away deterministically). -/
def mkPostedMsg (user text : String) (messageId : Option String) (now : Int) : Msg :=
  { id := (truthy messageId).getD ("msg_" ++ toString now)
    user := user
    text := text
    time := now
    system := false }

/-- The POST branch of `fetch` (line 298): empty text is a 400, moderation
rejection a 403, else the message is appended, one oldest entry is shifted
off when the log exceeds 1000, and presence is touched. -/
def postMessage (st : Storage) (room user text : String)
    (messageId : Option String) (now : Int) : Nat × Storage :=
  if text == "" then
    (400, st)
  else
    let (m, st) := moderateMessage st text user room now
    if !m.allowed then
      (403, st)
    else
      let message := mkPostedMsg user text messageId now
      let messages := (jsGet st.messages room).getD []
      let messages := messages ++ [message]
      let messages := if messages.length > 1000 then messages.tail else messages
      let st := { st with messages := jsSet st.messages room messages }
      let (_, st) := updateUserPresence st room user now
      (200, st)

/-- The POST branch of `handlePrivateMessages` (line 485): falsy text or
recipient is a 400, else append with the 100-entry shift. -/
def pmPost (st : Storage) (conversationId user text toUser : String)
    (now : Int) : Nat × Storage :=
  if text == "" || toUser == "" then
    (400, st)
  else
    let message : PmMsg := ⟨"pm_" ++ toString now, user, toUser, text, now⟩
    let messages := (jsGet st.pm conversationId).getD []
    let messages := messages ++ [message]
    let messages := if messages.length > 100 then messages.tail else messages
    (200, { st with pm := jsSet st.pm conversationId messages })

/-- The leave branch of `fetch`'s DELETE handler (line 350): drops the
user's presence entry, deleting the room key when the map becomes empty. -/
def leaveRoom (st : Storage) (room user : String) : Nat × Storage :=
  let users := (jsGet st.users room).getD []
  let users := jsDelete users user
  if users.length > 0 then
    (200, { st with users := jsSet st.users room users })
  else
    (200, { st with users := jsDelete st.users room })

/-- Caller-identity resolution at the top of `fetch` (line 246):
`url.searchParams.get('user') || 'anon'`. -/
def resolveUser (queryUser : Option String) : String :=
  (truthy queryUser).getD "anon"

/-- One room-actor operation on the message logs: a chat post, a message
deletion (in the development configuration, no secret), a kick, or a
private-message post. -/
inductive Op
  | post (room user text : String) (messageId : Option String) (now : Int)
  | delMsg (room messageId user : String) (now : Int)
  | kickOp (room target moderator reason : String) (now : Int)
  | pmSend (conv user text toUser : String) (now : Int)

def Op.isKickOp : Op → Bool
  | .kickOp _ _ _ _ _ => true
  | _ => false

def applyOp (st : Storage) : Op → Storage
  | .post room user text messageId now => (postMessage st room user text messageId now).2
  | .delMsg room messageId user now =>
      (deleteMessage ⟨none⟩ ⟨none, none⟩ st room messageId user now).2
  | .kickOp room target moderator reason now =>
      (kickUser st room target moderator reason now).2
  | .pmSend conv user text toUser now => (pmPost st conv user text toUser now).2

def runOps (ops : List Op) (st : Storage) : Storage :=
  ops.foldl applyOp st

/-- Both message logs are within their caps (1000 for room chat, 100 for
private conversations). -/
def LogBounded (st : Storage) : Prop :=
  (∀ room, ((jsGet st.messages room).getD []).length ≤ 1000) ∧
  (∀ conv, ((jsGet st.pm conv).getD []).length ≤ 100)

/-! ### Association-list (JavaScript object) lemmas -/

theorem jsGet_nil {α : Type} (k : String) : jsGet ([] : JsMap α) k = none := rfl

theorem jsGet_cons {α : Type} (a : String × α) (t : JsMap α) (k : String) :
    jsGet (a :: t) k = if a.1 = k then some a.2 else jsGet t k := by
  by_cases h : a.1 = k <;> simp [jsGet, List.find?_cons, h]

theorem jsSet_cons_ne {α : Type} (a : String × α) (t : JsMap α) (k : String) (v : α)
    (h : a.1 ≠ k) : jsSet (a :: t) k v = a :: jsSet t k v := by
  unfold jsSet
  by_cases ht : t.any (fun p => p.1 == k) <;> simp [List.any_cons, h, ht]

theorem jsSet_nil {α : Type} (k : String) (v : α) : jsSet ([] : JsMap α) k v = [(k, v)] := by
  simp [jsSet]

theorem jsSet_cons_eq_map {α : Type} (a : String × α) (t : JsMap α) (k : String) (v : α)
    (h : a.1 = k) :
    jsSet (a :: t) k v = (k, v) :: t.map (fun p => if p.1 == k then (k, v) else p) := by
  unfold jsSet
  simp [List.any_cons, h]

theorem jsGet_jsSet_self {α : Type} (m : JsMap α) (k : String) (v : α) :
    jsGet (jsSet m k v) k = some v := by
  induction m with
  | nil =>
    rw [jsSet_nil, jsGet_cons]
    simp
  | cons a t ih =>
    by_cases h : a.1 = k
    · rw [jsSet_cons_eq_map a t k v h, jsGet_cons]
      simp
    · rw [jsSet_cons_ne a t k v h, jsGet_cons, if_neg h]
      exact ih

theorem jsGet_map_setter {α : Type} (t : JsMap α) (k k' : String) (v : α) (h : k' ≠ k) :
    jsGet (t.map (fun p => if p.1 == k then (k, v) else p)) k' = jsGet t k' := by
  induction t with
  | nil => rfl
  | cons a t ih =>
    rw [List.map_cons]
    by_cases ha : a.1 = k
    · have ha' : a.1 ≠ k' := fun hc => h (hc ▸ ha)
      rw [show (if a.1 == k then (k, v) else a) = (k, v) by simp [ha]]
      rw [jsGet_cons, jsGet_cons, if_neg ha']
      show (if k = k' then some v else jsGet _ k') = jsGet t k'
      rw [if_neg (Ne.symm h)]
      exact ih
    · rw [show (if a.1 == k then (k, v) else a) = a by simp [ha]]
      rw [jsGet_cons, jsGet_cons]
      by_cases ha' : a.1 = k'
      · rw [if_pos ha', if_pos ha']
      · rw [if_neg ha', if_neg ha']
        exact ih

theorem jsGet_jsSet_ne {α : Type} (m : JsMap α) (k k' : String) (v : α) (h : k' ≠ k) :
    jsGet (jsSet m k v) k' = jsGet m k' := by
  induction m with
  | nil =>
    rw [jsSet_nil, jsGet_cons]
    show (if k = k' then some v else jsGet _ k') = jsGet ([] : JsMap α) k'
    rw [if_neg (Ne.symm h)]
  | cons a t ih =>
    by_cases ha : a.1 = k
    · have ha' : a.1 ≠ k' := fun hc => h (hc ▸ ha)
      rw [jsSet_cons_eq_map a t k v ha, jsGet_cons]
      show (if k = k' then some v else jsGet _ k') = jsGet (a :: t) k'
      rw [if_neg (Ne.symm h), jsGet_map_setter t k k' v h, jsGet_cons, if_neg ha']
    · rw [jsSet_cons_ne a t k v ha, jsGet_cons, jsGet_cons, ih]

theorem jsGet_jsDelete_self {α : Type} (m : JsMap α) (k : String) :
    jsGet (jsDelete m k) k = none := by
  induction m with
  | nil => rfl
  | cons a t ih =>
    by_cases ha : a.1 = k
    · have hd : jsDelete (a :: t) k = jsDelete t k := by
        simp [jsDelete, List.filter_cons, ha]
      rw [hd]
      exact ih
    · have hd : jsDelete (a :: t) k = a :: jsDelete t k := by
        simp [jsDelete, List.filter_cons, ha]
      rw [hd, jsGet_cons, if_neg ha]
      exact ih

theorem jsGet_jsDelete_ne {α : Type} (m : JsMap α) (k k' : String) (h : k' ≠ k) :
    jsGet (jsDelete m k) k' = jsGet m k' := by
  induction m with
  | nil => rfl
  | cons a t ih =>
    by_cases ha : a.1 = k
    · have ha' : a.1 ≠ k' := fun hc => h (hc ▸ ha)
      have hd : jsDelete (a :: t) k = jsDelete t k := by
        simp [jsDelete, List.filter_cons, ha]
      rw [hd, ih, jsGet_cons, if_neg ha']
    · have hd : jsDelete (a :: t) k = a :: jsDelete t k := by
        simp [jsDelete, List.filter_cons, ha]
      rw [hd, jsGet_cons, jsGet_cons, ih]

theorem not_mem_jsKeys_jsDelete {α : Type} (m : JsMap α) (k : String) :
    k ∉ jsKeys (jsDelete m k) := by
  simp only [jsKeys, jsDelete, List.mem_map, List.mem_filter]
  rintro ⟨p, ⟨-, hp⟩, hk⟩
  simp only [bne_iff_ne, ne_eq] at hp
  exact hp hk

theorem jsKeys_filter_subset {α : Type} (m : JsMap α) (p : String × α → Bool) (x : String) :
    x ∈ jsKeys (m.filter p) → x ∈ jsKeys m := by
  simp only [jsKeys, List.mem_map, List.mem_filter]
  rintro ⟨q, ⟨hq, -⟩, hx⟩
  exact ⟨q, hq, hx⟩

/-! ### Frame lemmas: which storage fields each operation may touch -/

theorem isBanned_snd (st : Storage) (u : String) (now : Int) :
    (isBanned st u now).2 = st ∨
    (isBanned st u now).2 = { st with banned := jsDelete st.banned u.jsToLower } := by
  unfold isBanned
  repeat' split
  all_goals simp

theorem isBanned_messages (st : Storage) (u : String) (now : Int) :
    ((isBanned st u now).2).messages = st.messages := by
  rcases isBanned_snd st u now with h | h <;> rw [h]

theorem isBanned_pm (st : Storage) (u : String) (now : Int) :
    ((isBanned st u now).2).pm = st.pm := by
  rcases isBanned_snd st u now with h | h <;> rw [h]

theorem isBanned_users (st : Storage) (u : String) (now : Int) :
    ((isBanned st u now).2).users = st.users := by
  rcases isBanned_snd st u now with h | h <;> rw [h]

theorem isBanned_kicked (st : Storage) (u : String) (now : Int) :
    ((isBanned st u now).2).kicked = st.kicked := by
  rcases isBanned_snd st u now with h | h <;> rw [h]

theorem isBanned_spam (st : Storage) (u : String) (now : Int) :
    ((isBanned st u now).2).spam = st.spam := by
  rcases isBanned_snd st u now with h | h <;> rw [h]

theorem isKicked_snd (st : Storage) (u room : String) (now : Int) :
    (isKicked st u room now).2 = st ∨
    (isKicked st u room now).2 =
      { st with
          kicked := jsSet st.kicked room (jsDelete ((jsGet st.kicked room).getD []) u.jsToLower) } := by
  rcases hk : jsGet ((jsGet st.kicked room).getD []) u.jsToLower with _ | kick
  · simp [isKicked, hk]
  · by_cases he : now > kick.expires
    · simp [isKicked, hk, he]
    · simp [isKicked, hk, he]

theorem isKicked_messages (st : Storage) (u room : String) (now : Int) :
    ((isKicked st u room now).2).messages = st.messages := by
  rcases isKicked_snd st u room now with h | h <;> rw [h]

theorem isKicked_pm (st : Storage) (u room : String) (now : Int) :
    ((isKicked st u room now).2).pm = st.pm := by
  rcases isKicked_snd st u room now with h | h <;> rw [h]

theorem isKicked_users (st : Storage) (u room : String) (now : Int) :
    ((isKicked st u room now).2).users = st.users := by
  rcases isKicked_snd st u room now with h | h <;> rw [h]

theorem isKicked_banned (st : Storage) (u room : String) (now : Int) :
    ((isKicked st u room now).2).banned = st.banned := by
  rcases isKicked_snd st u room now with h | h <;> rw [h]

theorem isKicked_spam (st : Storage) (u room : String) (now : Int) :
    ((isKicked st u room now).2).spam = st.spam := by
  rcases isKicked_snd st u room now with h | h <;> rw [h]

theorem moderateMessage_frame (st : Storage) (text user room : String) (now : Int) :
    ((moderateMessage st text user room now).2).messages = st.messages ∧
    ((moderateMessage st text user room now).2).pm = st.pm ∧
    ((moderateMessage st text user room now).2).users = st.users := by
  unfold moderateMessage
  rcases hb : isBanned st user now with ⟨b, st1⟩
  have hb1 : st1.messages = st.messages := by
    have := isBanned_messages st user now; rwa [hb] at this
  have hb2 : st1.pm = st.pm := by
    have := isBanned_pm st user now; rwa [hb] at this
  have hb3 : st1.users = st.users := by
    have := isBanned_users st user now; rwa [hb] at this
  rcases hk : isKicked st1 user room now with ⟨k, st2⟩
  have hk1 : st2.messages = st1.messages := by
    have := isKicked_messages st1 user room now; rwa [hk] at this
  have hk2 : st2.pm = st1.pm := by
    have := isKicked_pm st1 user room now; rwa [hk] at this
  have hk3 : st2.users = st1.users := by
    have := isKicked_users st1 user room now; rwa [hk] at this
  simp only [hb, hk]
  split
  · exact ⟨hb1, hb2, hb3⟩
  · split
    · exact ⟨hk1.trans hb1, hk2.trans hb2, hk3.trans hb3⟩
    · split
      · exact ⟨hk1.trans hb1, hk2.trans hb2, hk3.trans hb3⟩
      · exact ⟨hk1.trans hb1, hk2.trans hb2, hk3.trans hb3⟩

theorem updateUserPresence_frame (st : Storage) (room u : String) (now : Int) :
    ((updateUserPresence st room u now).2).messages = st.messages ∧
    ((updateUserPresence st room u now).2).pm = st.pm ∧
    ((updateUserPresence st room u now).2).banned = st.banned ∧
    ((updateUserPresence st room u now).2).spam = st.spam := by
  unfold updateUserPresence
  rcases hk : isKicked st u room now with ⟨k, st1⟩
  have hk1 : st1.messages = st.messages := by
    have := isKicked_messages st u room now; rwa [hk] at this
  have hk2 : st1.pm = st.pm := by
    have := isKicked_pm st u room now; rwa [hk] at this
  have hk3 : st1.banned = st.banned := by
    have := isKicked_banned st u room now; rwa [hk] at this
  have hk4 : st1.spam = st.spam := by
    have := isKicked_spam st u room now; rwa [hk] at this
  simp only [hk]
  split
  · exact ⟨hk1, hk2, hk3, hk4⟩
  · exact ⟨hk1, hk2, hk3, hk4⟩

/-! ### Message-log cap machinery -/

theorem capped_length_le {α : Type} (l : List α) (x : α) (cap : Nat) (h : l.length ≤ cap) :
    (if (l ++ [x]).length > cap then (l ++ [x]).tail else l ++ [x]).length ≤ cap := by
  by_cases hc : (l ++ [x]).length > cap
  · rw [if_pos hc, List.length_tail]
    simp only [List.length_append, List.length_cons, List.length_nil] at hc ⊢
    omega
  · rw [if_neg hc]
    simp only [List.length_append, List.length_cons, List.length_nil] at hc ⊢
    omega

theorem logBounded_of_fields {st st' : Storage} (h : LogBounded st)
    (hm : st'.messages = st.messages) (hp : st'.pm = st.pm) : LogBounded st' := by
  refine ⟨fun room => ?_, fun conv => ?_⟩
  · rw [hm]; exact h.1 room
  · rw [hp]; exact h.2 conv

theorem jsSet_bounded {α : Type} (m : JsMap (List α)) (k : String) (v : List α) (cap : Nat)
    (hm : ∀ r, ((jsGet m r).getD []).length ≤ cap) (hv : v.length ≤ cap) :
    ∀ r, ((jsGet (jsSet m k v) r).getD []).length ≤ cap := by
  intro r
  by_cases hr : r = k
  · rw [hr, jsGet_jsSet_self]
    exact hv
  · rw [jsGet_jsSet_ne m k r v hr]
    exact hm r

theorem postMessage_bounded (st : Storage) (room user text : String)
    (mid : Option String) (now : Int) (h : LogBounded st) :
    LogBounded (postMessage st room user text mid now).2 := by
  unfold postMessage
  by_cases ht : text == ""
  · simp only [ht, if_true]
    exact h
  · simp only [ht, if_false]
    rcases hm : moderateMessage st text user room now with ⟨m, st1⟩
    have hf := moderateMessage_frame st text user room now
    rw [hm] at hf
    have h1 : LogBounded st1 := logBounded_of_fields h hf.1 hf.2.1
    by_cases ha : !m.allowed
    · simp only [ha, if_true]
      exact h1
    · simp only [ha, if_false]
      rcases hp : updateUserPresence
          { st1 with
              messages := jsSet st1.messages room
                (if ((jsGet st1.messages room).getD [] ++ [mkPostedMsg user text mid now]).length > 1000
                 then ((jsGet st1.messages room).getD [] ++ [mkPostedMsg user text mid now]).tail
                 else (jsGet st1.messages room).getD [] ++ [mkPostedMsg user text mid now]) }
          room user now with ⟨e, st2⟩
      have hpf := updateUserPresence_frame
          { st1 with
              messages := jsSet st1.messages room
                (if ((jsGet st1.messages room).getD [] ++ [mkPostedMsg user text mid now]).length > 1000
                 then ((jsGet st1.messages room).getD [] ++ [mkPostedMsg user text mid now]).tail
                 else (jsGet st1.messages room).getD [] ++ [mkPostedMsg user text mid now]) }
          room user now
      rw [hp] at hpf
      simp only [hp]
      refine logBounded_of_fields ?_ hpf.1 hpf.2.1
      refine ⟨?_, h1.2⟩
      exact jsSet_bounded st1.messages room _ 1000 h1.1
        (capped_length_le _ _ 1000 (h1.1 room))

theorem deleteMessage_bounded (env : Env) (req : Req) (st : Storage)
    (room mid user : String) (now : Int) (h : LogBounded st) :
    LogBounded (deleteMessage env req st room mid user now).2 := by
  unfold deleteMessage
  rcases verifyUserPermission env req user false with e | verifiedUser
  · exact h
  · rcases hf : ((jsGet st.messages room).getD []).find? (fun msg => msg.id == mid) with _ | message
    · simp only [hf]
      exact h
    · simp only [hf]
      by_cases hperm : message.user != verifiedUser && !(isModerator verifiedUser)
      · simp only [hperm, if_true]
        exact h
      · simp only [hperm, if_false]
        refine ⟨?_, h.2⟩
        refine jsSet_bounded st.messages room _ 1000 h.1 ?_
        have hmem := List.mem_of_find?_eq_some hf
        have hpa := List.find?_some hf
        have herase : (((jsGet st.messages room).getD []).eraseP
            (fun msg => msg.id == mid)).length = ((jsGet st.messages room).getD []).length - 1 :=
          List.length_eraseP_of_mem hmem hpa
        have hlen := h.1 room
        have hpos : 0 < ((jsGet st.messages room).getD []).length :=
          List.length_pos_of_mem hmem
        simp only [List.length_append, List.length_cons, List.length_nil, herase]
        omega

theorem pmPost_bounded (st : Storage) (conv user text toUser : String) (now : Int)
    (h : LogBounded st) : LogBounded (pmPost st conv user text toUser now).2 := by
  unfold pmPost
  by_cases ht : (text == "" || toUser == "") = true
  · simp only [ht, if_true]
    exact h
  · simp only [ht, if_false]
    refine ⟨h.1, ?_⟩
    exact jsSet_bounded st.pm conv _ 100 h.2 (capped_length_le _ _ 100 (h.2 conv))

theorem runOps_bounded (ops : List Op) (st : Storage)
    (hops : ∀ op ∈ ops, op.isKickOp = false) (h : LogBounded st) :
    LogBounded (runOps ops st) := by
  induction ops generalizing st with
  | nil => exact h
  | cons op t ih =>
    have hop : op.isKickOp = false := hops op (List.mem_cons_self op t)
    have ht : ∀ o ∈ t, o.isKickOp = false := fun o ho => hops o (List.mem_cons_of_mem op ho)
    have hstep : LogBounded (applyOp st op) := by
      cases op with
      | post room user text mid now => exact postMessage_bounded st room user text mid now h
      | delMsg room mid user now => exact deleteMessage_bounded ⟨none⟩ ⟨none, none⟩ st room mid user now h
      | kickOp room target moderator reason now => simp [Op.isKickOp] at hop
      | pmSend conv user text toUser now => exact pmPost_bounded st conv user text toUser now h
    exact ih (applyOp st op) ht hstep

theorem logBounded_empty : LogBounded emptyStorage := by
  constructor <;> intro r <;> simp [emptyStorage, jsGet_nil]

/-- Each `kickUser` call appends exactly one (system) message to the room log,
with no cap check. -/
theorem kickUser_log_len (st : Storage) (room target moderator reason : String) (now : Int) :
    ((jsGet ((kickUser st room target moderator reason now).2).messages room).getD []).length =
    ((jsGet st.messages room).getD []).length + 1 := by
  unfold kickUser
  simp [jsGet_jsSet_self]

theorem kicks_len (n : Nat) :
    ((jsGet (runOps (List.replicate n (Op.kickOp "r" "x" "nellowtcs" "" 0)) emptyStorage).messages
      "r").getD []).length = n := by
  induction n with
  | zero => rfl
  | succ k ih =>
    rw [List.replicate_succ']
    unfold runOps
    rw [List.foldl_append]
    simp only [List.foldl_cons, List.foldl_nil]
    show ((jsGet (applyOp (runOps (List.replicate k (Op.kickOp "r" "x" "nellowtcs" "" 0))
      emptyStorage) (Op.kickOp "r" "x" "nellowtcs" "" 0)).messages "r").getD []).length = k + 1
    rw [show applyOp (runOps (List.replicate k (Op.kickOp "r" "x" "nellowtcs" "" 0)) emptyStorage)
        (Op.kickOp "r" "x" "nellowtcs" "" 0) =
      (kickUser (runOps (List.replicate k (Op.kickOp "r" "x" "nellowtcs" "" 0)) emptyStorage)
        "r" "x" "nellowtcs" "" 0).2 from rfl]
    rw [kickUser_log_len]
    rw [ih]

theorem capped_suffix {α : Type} (l : List α) (x : α) (c : Prop) [Decidable c] :
    (if c then (l ++ [x]).tail else l ++ [x]) <:+ l ++ [x] := by
  split
  · exact List.tail_suffix _
  · exact List.suffix_refl _

theorem postMessage_suffix (st : Storage) (room user text : String) (mid : Option String)
    (now : Int) (h : (postMessage st room user text mid now).1 = 200) :
    ((jsGet ((postMessage st room user text mid now).2).messages room).getD []) <:+
      (((jsGet st.messages room).getD []) ++ [mkPostedMsg user text mid now]) := by
  unfold postMessage at h ⊢
  by_cases ht : (text == "") = true
  · rw [if_pos ht] at h
    dsimp only at h
    exact absurd h (by decide)
  · rw [if_neg ht] at h ⊢
    rcases hm : moderateMessage st text user room now with ⟨m, st1⟩
    rw [hm] at h
    have hf := moderateMessage_frame st text user room now
    rw [hm] at hf
    dsimp only at h hf ⊢
    by_cases ha : (!m.allowed) = true
    · rw [if_pos ha] at h
      dsimp only at h
      exact absurd h (by decide)
    · rw [if_neg ha] at h ⊢
      have hpf := updateUserPresence_frame
          { st1 with
              messages := jsSet st1.messages room
                (if ((jsGet st1.messages room).getD [] ++ [mkPostedMsg user text mid now]).length > 1000
                 then ((jsGet st1.messages room).getD [] ++ [mkPostedMsg user text mid now]).tail
                 else (jsGet st1.messages room).getD [] ++ [mkPostedMsg user text mid now]) }
          room user now
      dsimp only
      rw [hpf.1]
      dsimp only
      rw [jsGet_jsSet_self]
      rw [hf.1]
      simp only [Option.getD_some]
      exact capped_suffix _ _ _

/-- C1 (amended): starting from an empty room, any sequence of message posts,
message deletions and private-message posts (no kicks) keeps every room log
at or below 1000 entries and every private conversation at or below 100
entries; an accepted post yields a log that is a suffix of the old log plus
the new message (oldest-first FIFO eviction preserving relative order, and a
deletion replaces the removed message by its system message).  Kick system
messages, however, are appended with no cap check (see the counterexample). -/
theorem C1_cap_amended (ops : List Op) (st : Storage) (room user text : String)
    (mid : Option String) (now : Int)
    (hops : ∀ op ∈ ops, op.isKickOp = false)
    (hpost : (postMessage st room user text mid now).1 = 200) :
    ((∀ r, ((jsGet (runOps ops emptyStorage).messages r).getD []).length ≤ 1000) ∧
     (∀ c, ((jsGet (runOps ops emptyStorage).pm c).getD []).length ≤ 100)) ∧
    ((jsGet ((postMessage st room user text mid now).2).messages room).getD []) <:+
      (((jsGet st.messages room).getD []) ++ [mkPostedMsg user text mid now]) :=
  ⟨runOps_bounded ops emptyStorage hops logBounded_empty,
   postMessage_suffix st room user text mid now hpost⟩

/-- Witness for `C1_cap_amended` at a concrete run: a post, a deletion and a
private message from the empty store, plus one concrete accepted post. -/
theorem C1_cap_amended_witness :
    ((jsGet (runOps [Op.post "r" "u" "hi" none 0, Op.delMsg "r" "m" "u" 1,
        Op.pmSend "c" "u" "t" "v" 2] emptyStorage).messages "r").getD []).length ≤ 1000 ∧
    ((jsGet ((postMessage emptyStorage "r2" "u2" "x" none 5).2).messages "r2").getD []) <:+
      (((jsGet emptyStorage.messages "r2").getD []) ++ [mkPostedMsg "u2" "x" none 5]) :=
  ⟨(C1_cap_amended [Op.post "r" "u" "hi" none 0, Op.delMsg "r" "m" "u" 1,
      Op.pmSend "c" "u" "t" "v" 2] emptyStorage "r2" "u2" "x" none 5
      (by decide) (by decide)).1.1 "r",
   (C1_cap_amended [Op.post "r" "u" "hi" none 0, Op.delMsg "r" "m" "u" 1,
      Op.pmSend "c" "u" "t" "v" 2] emptyStorage "r2" "u2" "x" none 5
      (by decide) (by decide)).2⟩

/-- C1 counterexample: 1001 kick operations from the empty store leave the
room log at 1001 entries, exceeding the 1000-entry cap the claim asserts —
kick system messages are not subject to the cap/eviction rules. -/
theorem C1_cap_counterexample :
    1000 <
      ((jsGet (runOps (List.replicate 1001 (Op.kickOp "r" "x" "nellowtcs" "" 0))
        emptyStorage).messages "r").getD []).length := by
  rw [kicks_len 1001]
  norm_num

/-! ### C2: moderation authorization -/

/-- C2 (amended): when an authentication secret is configured, every
moderation request whose caller does not authenticate as a moderator is
answered 403 and leaves storage (in particular the Moderation Ledger)
unchanged.  When no secret is configured this protection does not exist:
`verifyUserPermission` returns the client-supplied identity without any
`isModerator` check, so any caller can mutate the ledger (see the
counterexample). -/
theorem C2_moderation_amended (env : Env) (req : Req) (st : Storage) (room user : String)
    (a : ModAction) (target reason : String) (dur : Option Int) (now : Int)
    (hconf : truthy env.authSecret ≠ none)
    (hmod : ((authenticateUser env req).map isModerator).getD false = false) :
    (handleModeration env req st room user a target reason dur now).1 = 403 ∧
    (handleModeration env req st room user a target reason dur now).2 = st := by
  have hverify : verifyUserPermission env req user true = Except.error "Authentication required" ∨
      verifyUserPermission env req user true = Except.error "Moderator privileges required" := by
    simp only [verifyUserPermission]
    rcases hs : truthy env.authSecret with _ | s
    · exact absurd hs hconf
    · rcases hau : authenticateUser env req with _ | v
      · left; rfl
      · rw [hau] at hmod
        simp only [Option.map_some', Option.getD_some] at hmod
        right
        simp [hmod]
  rcases hverify with hv | hv <;>
    (unfold handleModeration; rw [hv]; exact ⟨rfl, rfl⟩)

/-- Witness for `C2_moderation_amended`: a configured secret with an
unauthenticated caller gets 403 and no state change. -/
theorem C2_moderation_amended_witness :
    (handleModeration ⟨some "s"⟩ ⟨none, none⟩ emptyStorage "r" "alice"
      ModAction.kick "bob" "" none 0).1 = 403 ∧
    (handleModeration ⟨some "s"⟩ ⟨none, none⟩ emptyStorage "r" "alice"
      ModAction.kick "bob" "" none 0).2 = emptyStorage :=
  C2_moderation_amended ⟨some "s"⟩ ⟨none, none⟩ emptyStorage "r" "alice"
    ModAction.kick "bob" "" none 0 (by decide) (by decide)

/-- C2 counterexample: with no authentication secret configured, the
non-moderator "alice" successfully bans "bob": the request is answered 200
(not 403) and the Moderation Ledger gains a ban record. -/
theorem C2_moderation_counterexample :
    isModerator "alice" = false ∧
    (handleModeration ⟨none⟩ ⟨none, none⟩ emptyStorage "r" "alice"
      ModAction.ban "bob" "" none 0).1 = 200 ∧
    jsGet (handleModeration ⟨none⟩ ⟨none, none⟩ emptyStorage "r" "alice"
      ModAction.ban "bob" "" none 0).2.banned "bob" = some ⟨"alice", "", 0, none⟩ := by
  exact ⟨by decide, by decide, by decide⟩

/-! ### C3: kick semantics -/

/-- C3: kicking `target` from `room` writes a kick record with a fixed
5-minute expiry keyed by the lowercased target, immediately removes the
target from the `getUsers` (listActive) result, makes a heartbeat by the
kicked user (any capitalization) be rejected as an error that leaves storage
untouched for the whole 5 minutes, and lets a heartbeat after the expiry
succeed again (presence re-established). -/
theorem C3_kick_semantics (st : Storage) (room target moderator reason u : String)
    (now t1 t2 tq : Int)
    (hu : u.jsToLower = target.jsToLower)
    (h1 : t1 ≤ now + 5 * 60 * 1000)
    (h2 : now + 5 * 60 * 1000 < t2) :
    jsGet ((jsGet ((kickUser st room target moderator reason now).2).kicked room).getD [])
        target.jsToLower = some ⟨moderator, reason, now, now + 5 * 60 * 1000⟩ ∧
    target ∉ (getUsers (kickUser st room target moderator reason now).2 room tq).1 ∧
    updateUserPresence (kickUser st room target moderator reason now).2 room u t1 =
      (Except.error "User is kicked from this room",
        (kickUser st room target moderator reason now).2) ∧
    (updateUserPresence (kickUser st room target moderator reason now).2 room u t2).1 =
      Except.ok (jsSet (jsDelete ((jsGet st.users room).getD []) target) u t2) ∧
    jsGet ((jsGet ((updateUserPresence (kickUser st room target moderator reason now).2
      room u t2).2).users room).getD []) u = some t2 := by
  have hk : ((kickUser st room target moderator reason now).2).kicked =
      jsSet st.kicked room (jsSet ((jsGet st.kicked room).getD []) target.jsToLower
        ⟨moderator, reason, now, now + 5 * 60 * 1000⟩) := rfl
  have hus : ((kickUser st room target moderator reason now).2).users =
      jsSet st.users room (jsDelete ((jsGet st.users room).getD []) target) := rfl
  have hlookT : jsGet ((jsGet ((kickUser st room target moderator reason now).2).kicked
      room).getD []) target.jsToLower =
      some ⟨moderator, reason, now, now + 5 * 60 * 1000⟩ := by
    rw [hk, jsGet_jsSet_self, Option.getD_some]
    exact jsGet_jsSet_self _ _ _
  have hlook : jsGet ((jsGet ((kickUser st room target moderator reason now).2).kicked
      room).getD []) u.jsToLower =
      some ⟨moderator, reason, now, now + 5 * 60 * 1000⟩ := by
    rw [hu]
    exact hlookT
  have hkick1 : isKicked (kickUser st room target moderator reason now).2 u room t1 =
      (true, (kickUser st room target moderator reason now).2) := by
    simp only [isKicked, hlook]
    rw [if_neg (by omega)]
  have hkick2 : isKicked (kickUser st room target moderator reason now).2 u room t2 =
      (false,
        { (kickUser st room target moderator reason now).2 with
            kicked := jsSet ((kickUser st room target moderator reason now).2).kicked room
              (jsDelete ((jsGet ((kickUser st room target moderator reason now).2).kicked
                room).getD []) u.jsToLower) }) := by
    simp only [isKicked, hlook]
    rw [if_pos (by omega)]
  refine ⟨hlookT, ?_, ?_, ?_, ?_⟩
  · intro hmem
    unfold getUsers at hmem
    dsimp only at hmem
    rw [hus, jsGet_jsSet_self, Option.getD_some] at hmem
    exact not_mem_jsKeys_jsDelete _ _ (jsKeys_filter_subset _ _ _ hmem)
  · unfold updateUserPresence
    rw [hkick1]
    rfl
  · unfold updateUserPresence
    rw [hkick2]
    dsimp only
    simp only [hus, jsGet_jsSet_self, Option.getD_some]
    rfl
  · unfold updateUserPresence
    rw [hkick2]
    simp [hus, jsGet_jsSet_self, Option.getD_some]

/-- Witness for `C3_kick_semantics`: kicking "bob" at time 0 from a room in
which "bob" is present; heartbeat at 300000 (still within 5 min) rejected,
heartbeat at 300001 accepted. -/
theorem C3_kick_semantics_witness :
    jsGet ((jsGet ((kickUser ⟨[], [], [("r", [("bob", 0)])], [], [], []⟩ "r" "bob" "nellowtcs"
        "" 0).2).kicked "r").getD []) ("bob".jsToLower) =
      some ⟨"nellowtcs", "", 0, 0 + 5 * 60 * 1000⟩ ∧
    "bob" ∉ (getUsers (kickUser ⟨[], [], [("r", [("bob", 0)])], [], [], []⟩ "r" "bob"
      "nellowtcs" "" 0).2 "r" 1).1 ∧
    updateUserPresence (kickUser ⟨[], [], [("r", [("bob", 0)])], [], [], []⟩ "r" "bob"
        "nellowtcs" "" 0).2 "r" "bob" 300000 =
      (Except.error "User is kicked from this room",
        (kickUser ⟨[], [], [("r", [("bob", 0)])], [], [], []⟩ "r" "bob" "nellowtcs" "" 0).2) ∧
    (updateUserPresence (kickUser ⟨[], [], [("r", [("bob", 0)])], [], [], []⟩ "r" "bob"
        "nellowtcs" "" 0).2 "r" "bob" 300001).1 =
      Except.ok (jsSet (jsDelete ((jsGet (⟨[], [], [("r", [("bob", 0)])], [], [], []⟩ :
        Storage).users "r").getD []) "bob") "bob" 300001) ∧
    jsGet ((jsGet ((updateUserPresence (kickUser ⟨[], [], [("r", [("bob", 0)])], [], [], []⟩
      "r" "bob" "nellowtcs" "" 0).2 "r" "bob" 300001).2).users "r").getD []) "bob" =
      some 300001 :=
  C3_kick_semantics ⟨[], [], [("r", [("bob", 0)])], [], [], []⟩ "r" "bob" "nellowtcs" "" "bob"
    0 300000 300001 1 rfl (by omega) (by omega)

/-! ### C4: message deletion -/

/-- C4: for every delete request whose permission verification resolves the
requester to `q` (which covers both the no-secret configuration, where `q`
is the client-supplied user, and a successfully authenticated caller):
if no message with the id exists the outcome is NotFound (404) and storage
is unchanged; if `q` neither equals the message's `user` field nor is a
moderator the outcome is Unauthorized (403) and storage is unchanged;
otherwise the message is removed and a system message recording who deleted
whose message is appended to the log. -/
theorem C4_delete_semantics (env : Env) (req : Req) (st : Storage)
    (room mid user q : String) (now : Int)
    (hq : verifyUserPermission env req user false = Except.ok q) :
    (((jsGet st.messages room).getD []).find? (fun msg => msg.id == mid) = none →
      deleteMessage env req st room mid user now = (DelOutcome.notFound, st) ∧
      delStatus (deleteMessage env req st room mid user now).1 = 404) ∧
    (∀ message,
      ((jsGet st.messages room).getD []).find? (fun msg => msg.id == mid) = some message →
      ((message.user ≠ q → isModerator q = false →
         deleteMessage env req st room mid user now = (DelOutcome.unauthorized, st) ∧
         delStatus (deleteMessage env req st room mid user now).1 = 403) ∧
       ((message.user = q ∨ isModerator q = true) →
         (deleteMessage env req st room mid user now).1 =
           DelOutcome.deleted (sysDelMsg message.user q now) ∧
         (sysDelMsg message.user q now).system = true ∧
         (sysDelMsg message.user q now).user = "*** System ***" ∧
         ((deleteMessage env req st room mid user now).2).messages =
           jsSet st.messages room
             ((((jsGet st.messages room).getD []).eraseP (fun msg => msg.id == mid)) ++
               [sysDelMsg message.user q now])))) := by
  unfold deleteMessage
  rw [hq]
  dsimp only
  refine ⟨?_, ?_⟩
  · intro hf
    simp only [hf]
    exact ⟨by simp, by simp [delStatus]⟩
  · intro message hf
    simp only [hf]
    refine ⟨?_, ?_⟩
    · intro hne hmod
      have hcond : (message.user != q && !(isModerator q)) = true := by
        simp [bne_iff_ne, hne, hmod]
      rw [if_pos hcond]
      exact ⟨by simp, by simp [delStatus]⟩
    · intro hperm
      have hcond : (message.user != q && !(isModerator q)) = false := by
        rcases hperm with h | h
        · simp [h]
        · simp [h]
      rw [if_neg (by simp [hcond])]
      exact ⟨rfl, rfl, rfl, rfl⟩

/-- Witness for `C4_delete_semantics`: in a room with one message "m1" by
"alice" (development configuration, no secret): deleting an unknown id is a
404 no-op, "bob" deleting alice's message is a 403 no-op, and "alice"
deleting her own message yields the deleted outcome with its system
message. -/
theorem C4_delete_semantics_witness :
    deleteMessage ⟨none⟩ ⟨none, none⟩
        ⟨[("r", [⟨"m1", "alice", "hello", 0, false⟩])], [], [], [], [], []⟩
        "r" "nope" "alice" 5 =
      (DelOutcome.notFound,
        ⟨[("r", [⟨"m1", "alice", "hello", 0, false⟩])], [], [], [], [], []⟩) ∧
    deleteMessage ⟨none⟩ ⟨none, none⟩
        ⟨[("r", [⟨"m1", "alice", "hello", 0, false⟩])], [], [], [], [], []⟩
        "r" "m1" "bob" 5 =
      (DelOutcome.unauthorized,
        ⟨[("r", [⟨"m1", "alice", "hello", 0, false⟩])], [], [], [], [], []⟩) ∧
    (deleteMessage ⟨none⟩ ⟨none, none⟩
        ⟨[("r", [⟨"m1", "alice", "hello", 0, false⟩])], [], [], [], [], []⟩
        "r" "m1" "alice" 5).1 =
      DelOutcome.deleted (sysDelMsg "alice" "alice" 5) := by
  refine ⟨?_, ?_, ?_⟩
  · exact ((C4_delete_semantics ⟨none⟩ ⟨none, none⟩
      ⟨[("r", [⟨"m1", "alice", "hello", 0, false⟩])], [], [], [], [], []⟩
      "r" "nope" "alice" "alice" 5 rfl).1 rfl).1
  · exact (((C4_delete_semantics ⟨none⟩ ⟨none, none⟩
      ⟨[("r", [⟨"m1", "alice", "hello", 0, false⟩])], [], [], [], [], []⟩
      "r" "m1" "bob" "bob" 5 rfl).2 ⟨"m1", "alice", "hello", 0, false⟩ rfl).1
      (by decide) (by decide)).1
  · exact (((C4_delete_semantics ⟨none⟩ ⟨none, none⟩
      ⟨[("r", [⟨"m1", "alice", "hello", 0, false⟩])], [], [], [], [], []⟩
      "r" "m1" "alice" "alice" 5 rfl).2 ⟨"m1", "alice", "hello", 0, false⟩ rfl).2
      (Or.inl rfl)).1

/-! ### C5: lazy ban expiry -/

/-- C5: `isBanned u` answers true exactly when a ban record keyed by the
lowercased username exists and is unexpired, where `expires = none` (the
JavaScript null) means permanent — true at every query time with no
auto-expiry and no state change; when the record's `expires` has passed
(`now > expires`), `isBanned` answers false and deletes the record, so a
subsequent direct read of the Ban Record for that user finds it absent. -/
theorem C5_isBanned_semantics (st : Storage) (u : String) (now : Int) :
    ((isBanned st u now).1 = true ↔
      ∃ b, jsGet st.banned u.jsToLower = some b ∧
        (b.expires = none ∨ ∃ e, b.expires = some e ∧ now ≤ e)) ∧
    (∀ b e, jsGet st.banned u.jsToLower = some b → b.expires = some e → e < now →
      (isBanned st u now).1 = false ∧
      jsGet ((isBanned st u now).2).banned u.jsToLower = none) ∧
    (∀ b, jsGet st.banned u.jsToLower = some b → b.expires = none →
      (isBanned st u now).1 = true ∧ (isBanned st u now).2 = st) := by
  rcases hb : jsGet st.banned u.jsToLower with _ | b
  · have hres : isBanned st u now = (false, st) := by
      simp [isBanned, hb]
    refine ⟨?_, ?_, ?_⟩
    · rw [hres]
      constructor
      · intro hfalse
        exact absurd hfalse (by simp)
      · rintro ⟨b', hb', -⟩
        exact Option.noConfusion hb'
    · intro b' e hb' hbe hlt
      exact Option.noConfusion hb'
    · intro b' hb' hbe
      exact Option.noConfusion hb'
  · rcases hbe : b.expires with _ | e
    · have hres : isBanned st u now = (true, st) := by
        simp [isBanned, hb, hbe]
      refine ⟨?_, ?_, ?_⟩
      · rw [hres]
        exact ⟨fun _ => ⟨b, rfl, Or.inl hbe⟩, fun _ => rfl⟩
      · intro b' e hb' hbe' hlt
        obtain rfl : b = b' := by injection hb'
        rw [hbe] at hbe'
        exact Option.noConfusion hbe'
      · intro b' hb' hbe'
        rw [hres]
        exact ⟨rfl, rfl⟩
    · by_cases hlt : now > e
      · have hres : isBanned st u now =
            (false, { st with banned := jsDelete st.banned u.jsToLower }) := by
          simp [isBanned, hb, hbe, hlt]
        refine ⟨?_, ?_, ?_⟩
        · rw [hres]
          constructor
          · intro hfalse
            exact absurd hfalse (by simp)
          · rintro ⟨b', hb', hcase⟩
            obtain rfl : b = b' := by injection hb'
            rcases hcase with hnone | ⟨e', he', hle⟩
            · rw [hbe] at hnone
              exact Option.noConfusion hnone
            · rw [hbe] at he'
              obtain rfl : e = e' := by injection he'
              omega
        · intro b' e' hb' hbe' hlt'
          refine ⟨by rw [hres], ?_⟩
          rw [hres]
          exact jsGet_jsDelete_self _ _
        · intro b' hb' hbe'
          obtain rfl : b = b' := by injection hb'
          rw [hbe] at hbe'
          exact Option.noConfusion hbe'
      · have hres : isBanned st u now = (true, st) := by
          simp [isBanned, hb, hbe, hlt]
        refine ⟨?_, ?_, ?_⟩
        · rw [hres]
          exact ⟨fun _ => ⟨b, rfl, Or.inr ⟨e, hbe, by omega⟩⟩, fun _ => rfl⟩
        · intro b' e' hb' hbe' hlt'
          obtain rfl : b = b' := by injection hb'
          rw [hbe] at hbe'
          obtain rfl : e = e' := by injection hbe'
          omega
        · intro b' hb' hbe'
          obtain rfl : b = b' := by injection hb'
          rw [hbe] at hbe'
          exact Option.noConfusion hbe'

/-- Witness for `C5_isBanned_semantics`: a ban of "bob" that expired at 10,
read at 11, answers false and is deleted from storage; a permanent
(`expires = null`) ban of "eve" is still in force at a far-future time. -/
theorem C5_isBanned_semantics_witness :
    (isBanned ⟨[], [], [], [], [("bob", ⟨"m", "", 0, some 10⟩)], []⟩ "bob" 11).1 = false ∧
    jsGet ((isBanned ⟨[], [], [], [], [("bob", ⟨"m", "", 0, some 10⟩)], []⟩
      "bob" 11).2).banned ("bob".jsToLower) = none ∧
    (isBanned ⟨[], [], [], [], [("eve", ⟨"m", "", 0, none⟩)], []⟩ "eve" 315360000000).1 = true :=
  ⟨((C5_isBanned_semantics ⟨[], [], [], [], [("bob", ⟨"m", "", 0, some 10⟩)], []⟩ "bob" 11).2.1
      ⟨"m", "", 0, some 10⟩ 10 rfl rfl (by omega)).1,
   ((C5_isBanned_semantics ⟨[], [], [], [], [("bob", ⟨"m", "", 0, some 10⟩)], []⟩ "bob" 11).2.1
      ⟨"m", "", 0, some 10⟩ 10 rfl rfl (by omega)).2,
   ((C5_isBanned_semantics ⟨[], [], [], [], [("eve", ⟨"m", "", 0, none⟩)], []⟩
      "eve" 315360000000).2.2 ⟨"m", "", 0, none⟩ rfl rfl).1⟩

/-! ### C6: spam check -/

theorem isKicked_fst_congr (st1 st2 : Storage) (u room : String) (now : Int)
    (h : st1.kicked = st2.kicked) :
    (isKicked st1 u room now).1 = (isKicked st2 u room now).1 := by
  rcases hk : jsGet ((jsGet st2.kicked room).getD []) u.jsToLower with _ | kick
  · simp [isKicked, h, hk]
  · by_cases he : now > kick.expires
    · simp [isKicked, h, hk, he]
    · simp [isKicked, h, hk, he]

/-- C6 (amended): the spam check first rejects with the ban reason when the
user is banned, then with the kick reason when kicked from the room;
otherwise it rejects exactly when some spam-window entry *strictly* younger
than 30 s (`now - entry.time < 30000`) has text exactly equal to the post
(an entry exactly 30 s old no longer counts — see the counterexample); on
allow it persists the filtered-to-younger-than-30 s window plus
`{text, now}`, truncated to the last 10 entries. -/
theorem C6_moderate_amended (st : Storage) (text user room : String) (now : Int) :
    ((moderateMessage st text user room now).1.allowed = false ↔
      ((isBanned st user now).1 = true ∨
       (isKicked st user room now).1 = true ∨
       (((jsGet st.spam user).getD []).filter (fun e => now - e.time < 30000)).any
         (fun e => e.text == text) = true)) ∧
    ((isBanned st user now).1 = true →
      (moderateMessage st text user room now).1.reason = some "User is banned") ∧
    ((isBanned st user now).1 = false → (isKicked st user room now).1 = true →
      (moderateMessage st text user room now).1.reason = some "User is kicked from this room") ∧
    ((isBanned st user now).1 = false → (isKicked st user room now).1 = false →
      (((jsGet st.spam user).getD []).filter (fun e => now - e.time < 30000)).any
        (fun e => e.text == text) = true →
      (moderateMessage st text user room now).1.reason = some "Spam detected") ∧
    ((moderateMessage st text user room now).1.allowed = true →
      jsGet ((moderateMessage st text user room now).2).spam user =
        some (sliceLast 10
          ((((jsGet st.spam user).getD []).filter (fun e => now - e.time < 30000)) ++
            [⟨text, now⟩]))) := by
  rcases hb : isBanned st user now with ⟨b, st1⟩
  have hbf : st1.kicked = st.kicked := by
    have := isBanned_kicked st user now
    rw [hb] at this
    exact this
  have hbs : st1.spam = st.spam := by
    have := isBanned_spam st user now
    rw [hb] at this
    exact this
  rcases hk2 : isKicked st1 user room now with ⟨k, st2⟩
  have hcong : (isKicked st user room now).1 = k := by
    have hc := isKicked_fst_congr st1 st user room now hbf
    rw [hk2] at hc
    exact hc.symm
  have hs2 : st2.spam = st.spam := by
    have := isKicked_spam st1 user room now
    rw [hk2] at this
    exact this.trans hbs
  cases b
  · -- not banned
    cases k
    · -- not kicked
      by_cases hspam :
          ((((jsGet st.spam user).getD []).filter (fun e => now - e.time < 30000)).any
            (fun e => e.text == text)) = true
      · have hres : moderateMessage st text user room now = (⟨false, some "Spam detected"⟩, st2) := by
          simp [moderateMessage, hb, hk2, hs2, hspam]
        rw [hres]
        refine ⟨?_, ?_, ?_, ?_, ?_⟩
        · exact ⟨fun _ => Or.inr (Or.inr hspam), fun _ => rfl⟩
        · intro hcontra
          exact absurd hcontra (by simp)
        · intro hnb hk
          rw [hcong] at hk
          exact absurd hk (by simp)
        · intro hnb hk hsp
          rfl
        · intro hcontra
          exact absurd hcontra (by simp)
      · have hres : moderateMessage st text user room now =
            (⟨true, none⟩,
              { st2 with
                  spam := jsSet st2.spam user (sliceLast 10
                    ((((jsGet st.spam user).getD []).filter (fun e => now - e.time < 30000)) ++
                      [⟨text, now⟩])) }) := by
          simp only [moderateMessage, hb, hk2, hs2]
          simp [hspam]
        rw [hres]
        refine ⟨?_, ?_, ?_, ?_, ?_⟩
        · constructor
          · intro hcontra
            exact absurd hcontra (by simp)
          · rintro (hc | hc | hc)
            · exact absurd hc (by simp)
            · rw [hcong] at hc
              exact absurd hc (by simp)
            · exact absurd hc hspam
        · intro hc
          exact absurd hc (by simp)
        · intro hnb hk
          rw [hcong] at hk
          exact absurd hk (by simp)
        · intro hnb hk hsp
          exact absurd hsp hspam
        · intro htrue
          exact jsGet_jsSet_self _ _ _
    · -- kicked
      have hres : moderateMessage st text user room now =
          (⟨false, some "User is kicked from this room"⟩, st2) := by
        simp [moderateMessage, hb, hk2]
      rw [hres]
      refine ⟨?_, ?_, ?_, ?_, ?_⟩
      · exact ⟨fun _ => Or.inr (Or.inl hcong), fun _ => rfl⟩
      · intro hc
        exact absurd hc (by simp)
      · intro hnb hk
        rfl
      · intro hnb hk hsp
        rw [hcong] at hk
        exact absurd hk (by simp)
      · intro hcontra
        exact absurd hcontra (by simp)
  · -- banned
    have hres : moderateMessage st text user room now =
        (⟨false, some "User is banned"⟩, st1) := by
      simp [moderateMessage, hb]
    rw [hres]
    refine ⟨?_, ?_, ?_, ?_, ?_⟩
    · refine ⟨fun _ => Or.inl ?_, fun _ => rfl⟩
      rfl
    · intro hc
      rfl
    · intro hnb hk
      exact absurd hnb (by simp)
    · intro hnb hk hsp
      exact absurd hnb (by simp)
    · intro hcontra
      exact absurd hcontra (by simp)

/-- Witness for `C6_moderate_amended`: a second identical-text post 29 s
after the first is rejected; the same post 31 s after is accepted. -/
theorem C6_moderate_amended_witness :
    (moderateMessage ⟨[], [], [], [], [], [("u", [⟨"hi", 0⟩])]⟩ "hi" "u" "r" 29000).1.allowed
      = false ∧
    (moderateMessage ⟨[], [], [], [], [], [("u", [⟨"hi", 0⟩])]⟩ "hi" "u" "r" 31000).1.allowed
      = true := by
  constructor
  · exact (C6_moderate_amended ⟨[], [], [], [], [], [("u", [⟨"hi", 0⟩])]⟩ "hi" "u" "r"
      29000).1.mpr (Or.inr (Or.inr (by decide)))
  · have h := (C6_moderate_amended ⟨[], [], [], [], [], [("u", [⟨"hi", 0⟩])]⟩ "hi" "u" "r"
      31000).1
    cases hall : (moderateMessage ⟨[], [], [], [], [], [("u", [⟨"hi", 0⟩])]⟩
        "hi" "u" "r" 31000).1.allowed
    · rcases h.mp hall with hc | hc | hc
      · exact absurd hc (by decide)
      · exact absurd hc (by decide)
      · exact absurd hc (by decide)
    · rfl

/-- C6 counterexample: a spam-window entry exactly 30 s old (`now - time =
30000` ms, so "not older than 30 seconds") with text identical to the post
does not cause a rejection: the code's strict `now - time < 30000` filter
discards the boundary entry and the post is allowed, while the claim's
"some entry not older than 30 seconds with equal text" condition holds. -/
theorem C6_moderate_counterexample :
    (∃ e, e ∈ ((jsGet (⟨[], [], [], [], [], [("u", [⟨"hi", 0⟩])]⟩ : Storage).spam "u").getD [])
      ∧ (30000 : Int) - e.time ≤ 30000 ∧ e.text = "hi") ∧
    (isBanned ⟨[], [], [], [], [], [("u", [⟨"hi", 0⟩])]⟩ "u" 30000).1 = false ∧
    (isKicked ⟨[], [], [], [], [], [("u", [⟨"hi", 0⟩])]⟩ "u" "r" 30000).1 = false ∧
    (moderateMessage ⟨[], [], [], [], [], [("u", [⟨"hi", 0⟩])]⟩ "hi" "u" "r" 30000).1.allowed
      = true := by
  refine ⟨⟨⟨"hi", 0⟩, by decide, by decide, rfl⟩, by decide, by decide, by decide⟩

/-! ### C7: unban -/

/-- C7 (amended): `unbanUser` deletes the record and answers 200 exactly
when a ban record keyed by the lowercased target exists (other ledger keys
untouched); when no record exists it answers the client-error status 400
('User not banned') — an explicit error response, not a harmless ordinary
false-result — and leaves storage unchanged. -/
theorem C7_unban_amended (st : Storage) (target moderator : String) :
    ((∃ b, jsGet st.banned target.jsToLower = some b) →
      (unbanUser st target moderator).1 = 200 ∧
      jsGet ((unbanUser st target moderator).2).banned target.jsToLower = none ∧
      (∀ w, w ≠ target.jsToLower →
        jsGet ((unbanUser st target moderator).2).banned w = jsGet st.banned w)) ∧
    (jsGet st.banned target.jsToLower = none →
      unbanUser st target moderator = (400, st)) := by
  rcases hb : jsGet st.banned target.jsToLower with _ | b
  · refine ⟨?_, ?_⟩
    · rintro ⟨b, hb'⟩
      exact Option.noConfusion hb'
    · intro _
      simp [unbanUser, hb]
  · refine ⟨?_, ?_⟩
    · intro _
      have hres : unbanUser st target moderator =
          (200, { st with banned := jsDelete st.banned target.jsToLower }) := by
        simp [unbanUser, hb]
      rw [hres]
      exact ⟨rfl, jsGet_jsDelete_self _ _, fun w hw => jsGet_jsDelete_ne _ _ _ hw⟩
    · intro hc
      exact Option.noConfusion hc

/-- Witness for `C7_unban_amended`: unbanning the banned "bob" answers 200
and removes the record; unbanning the never-banned "alice" answers 400 with
storage unchanged. -/
theorem C7_unban_amended_witness :
    (unbanUser ⟨[], [], [], [], [("bob", ⟨"m", "", 0, none⟩)], []⟩ "bob" "nellowtcs").1 = 200 ∧
    jsGet ((unbanUser ⟨[], [], [], [], [("bob", ⟨"m", "", 0, none⟩)], []⟩
      "bob" "nellowtcs").2).banned ("bob".jsToLower) = none ∧
    unbanUser emptyStorage "alice" "nellowtcs" = (400, emptyStorage) :=
  ⟨((C7_unban_amended ⟨[], [], [], [], [("bob", ⟨"m", "", 0, none⟩)], []⟩ "bob" "nellowtcs").1
      ⟨⟨"m", "", 0, none⟩, rfl⟩).1,
   ((C7_unban_amended ⟨[], [], [], [], [("bob", ⟨"m", "", 0, none⟩)], []⟩ "bob" "nellowtcs").1
      ⟨⟨"m", "", 0, none⟩, rfl⟩).2.1,
   (C7_unban_amended emptyStorage "alice" "nellowtcs").2 rfl⟩

/-- C7 counterexample: unbanning "bob", who has no ban record, answers the
HTTP client-error status 400 ('User not banned'), not the harmless ordinary
false-result the claim asserts; storage is unchanged. -/
theorem C7_unban_counterexample :
    jsGet emptyStorage.banned ("bob".jsToLower) = none ∧
    unbanUser emptyStorage "bob" "nellowtcs" = (400, emptyStorage) := by
  exact ⟨rfl, rfl⟩

/-! ### C8: presence timeout -/

theorem mem_of_jsGet_eq_some {α : Type} (m : JsMap α) (k : String) (v : α)
    (h : jsGet m k = some v) : (k, v) ∈ m := by
  unfold jsGet at h
  rcases hf : m.find? (fun p => p.1 == k) with _ | p
  · rw [hf] at h
    exact Option.noConfusion h
  · rw [hf] at h
    simp only [Option.map_some'] at h
    have hp := List.find?_some hf
    have hmem := List.mem_of_find?_eq_some hf
    have hk : p.1 = k := by simpa using hp
    have hv : p.2 = v := by injection h
    have hpair : p = (k, v) := by
      cases p
      simp_all
    rw [← hpair]
    exact hmem

/-- C8: a presence entry for `u` last seen at `s`, queried at `now` with
`now - s ≥ 60000` ms (and well-formed storage: presence keys unduplicated,
as JavaScript object keys always are), is excluded from the user list
returned by `getUsers`, and the filtered map is persisted back — with the
room key deleted entirely when nothing active remains — so a subsequent
direct read of storage finds the entry absent. -/
theorem C8_presence_timeout (st : Storage) (room u : String) (s now : Int)
    (hnodup : (jsKeys ((jsGet st.users room).getD [])).Nodup)
    (hu : jsGet ((jsGet st.users room).getD []) u = some s)
    (hexp : now - s ≥ 60000) :
    u ∉ (getUsers st room now).1 ∧
    jsGet ((jsGet ((getUsers st room now).2).users room).getD []) u = none := by
  have hmem : (u, s) ∈ ((jsGet st.users room).getD []) := mem_of_jsGet_eq_some _ _ _ hu
  simp only [jsKeys] at hnodup
  have hinj := List.inj_on_of_nodup_map hnodup
  have hkey : ∀ q ∈ ((jsGet st.users room).getD []), q.1 = u → q = (u, s) := by
    intro q hq hq1
    exact hinj hq hmem (by simpa using hq1)
  have hpred : ¬ (now - (u, s).2 < 60000) := by
    simp only
    omega
  have hnotin : ∀ v, jsGet (((jsGet st.users room).getD []).filter
      (fun p => now - p.2 < 60000)) u ≠ some v := by
    intro v hv
    have hmemf := mem_of_jsGet_eq_some _ _ _ hv
    have hmf := List.mem_filter.mp hmemf
    have heq := hkey (u, v) hmf.1 rfl
    have hveq : v = s := by injection heq with h1 h2
    rw [hveq] at hmf
    have := hmf.2
    simp only [decide_eq_true_eq] at this
    omega
  have hlen : (((jsGet st.users room).getD []).filter
      (fun p => now - p.2 < 60000)).length ≠ ((jsGet st.users room).getD []).length := by
    intro hlen
    have hall := List.filter_length_eq_length.mp hlen (u, s) hmem
    simp only [decide_eq_true_eq] at hall
    omega
  constructor
  · intro hin
    unfold getUsers at hin
    dsimp only at hin
    simp only [jsKeys, List.mem_map] at hin
    rcases hin with ⟨q, hq, hq1⟩
    have hmf := List.mem_filter.mp hq
    have heq := hkey q hmf.1 hq1
    rw [heq] at hmf
    have := hmf.2
    simp only [decide_eq_true_eq] at this
    omega
  · unfold getUsers
    dsimp only
    rw [if_pos hlen]
    by_cases hpos : (((jsGet st.users room).getD []).filter
        (fun p => now - p.2 < 60000)).length > 0
    · rw [if_pos hpos]
      dsimp only
      rw [jsGet_jsSet_self, Option.getD_some]
      rcases hg : jsGet (((jsGet st.users room).getD []).filter
          (fun p => now - p.2 < 60000)) u with _ | v
      · rfl
      · exact absurd hg (hnotin v)
    · rw [if_neg hpos]
      dsimp only
      rw [jsGet_jsDelete_self]
      rfl

/-- Witness for `C8_presence_timeout`: a room where "u" was last seen at 0,
queried at 60000; "u" is not listed and a direct read of the persisted
presence map no longer contains the entry. -/
theorem C8_presence_timeout_witness :
    "u" ∉ (getUsers ⟨[], [], [("r", [("u", 0)])], [], [], []⟩ "r" 60000).1 ∧
    jsGet ((jsGet ((getUsers ⟨[], [], [("r", [("u", 0)])], [], [], []⟩
      "r" 60000).2).users "r").getD []) "u" = none :=
  C8_presence_timeout ⟨[], [], [("r", [("u", 0)])], [], [], []⟩ "r" "u" 0 60000
    (by decide) rfl (by omega)

/-! ### C9: the anonymous default identity -/

theorem capped_getLast {α : Type} (l : List α) (x : α) (cap : Nat) (hcap : 0 < cap) :
    (if (l ++ [x]).length > cap then (l ++ [x]).tail else l ++ [x]).getLast? = some x := by
  split
  · rename_i hc
    cases l with
    | nil =>
      simp only [List.nil_append, List.length_cons, List.length_nil] at hc
      omega
    | cons a t =>
      simp only [List.cons_append, List.tail_cons]
      exact List.getLast?_concat _
  · exact List.getLast?_concat _

theorem postMessage_accepted_log (st : Storage) (room user text : String)
    (mid : Option String) (now : Int)
    (h : (postMessage st room user text mid now).1 = 200) :
    (jsGet ((postMessage st room user text mid now).2).messages room).getD [] =
      (if (((jsGet st.messages room).getD []) ++ [mkPostedMsg user text mid now]).length > 1000
       then (((jsGet st.messages room).getD []) ++ [mkPostedMsg user text mid now]).tail
       else ((jsGet st.messages room).getD []) ++ [mkPostedMsg user text mid now]) := by
  unfold postMessage at h ⊢
  by_cases ht : (text == "") = true
  · rw [if_pos ht] at h
    dsimp only at h
    exact absurd h (by decide)
  · rw [if_neg ht] at h ⊢
    rcases hm : moderateMessage st text user room now with ⟨m, st1⟩
    rw [hm] at h
    have hf := moderateMessage_frame st text user room now
    rw [hm] at hf
    dsimp only at h hf ⊢
    by_cases ha : (!m.allowed) = true
    · rw [if_pos ha] at h
      dsimp only at h
      exact absurd h (by decide)
    · rw [if_neg ha] at h ⊢
      have hpf := updateUserPresence_frame
          { st1 with
              messages := jsSet st1.messages room
                (if ((jsGet st1.messages room).getD [] ++ [mkPostedMsg user text mid now]).length > 1000
                 then ((jsGet st1.messages room).getD [] ++ [mkPostedMsg user text mid now]).tail
                 else (jsGet st1.messages room).getD [] ++ [mkPostedMsg user text mid now]) }
          room user now
      dsimp only
      rw [hpf.1]
      dsimp only
      rw [jsGet_jsSet_self, hf.1]
      simp only [Option.getD_some]

/-- C9 (amended): a request with absent (or empty) `user` query parameter
gets the literal identity "anon": an accepted post appends a message whose
`user` field is "anon", a heartbeat touches the presence key "anon", and a
leave removes the presence key "anon".  Delete authorization also uses
"anon" — all anonymous callers count as the same author — but only in the
no-secret configuration; when `AUTH_SECRET` is configured, the
authenticated header identity replaces "anon" for delete authorization
(see the counterexample). -/
theorem C9_anon_amended (st : Storage) (room text : String) (mid : Option String)
    (now : Int) :
    (resolveUser none = "anon" ∧ resolveUser (some "") = "anon") ∧
    ((postMessage st room (resolveUser none) text mid now).1 = 200 →
      ((jsGet ((postMessage st room (resolveUser none) text mid now).2).messages room).getD
        []).getLast? = some (mkPostedMsg "anon" text mid now)) ∧
    (∀ e, (updateUserPresence st room (resolveUser none) now).1 = Except.ok e →
      jsGet ((jsGet ((updateUserPresence st room (resolveUser none) now).2).users room).getD [])
        "anon" = some now) ∧
    jsGet ((jsGet ((leaveRoom st room (resolveUser none)).2).users room).getD []) "anon"
      = none ∧
    (∀ (req : Req) (mid2 : String) (m : Msg),
      ((jsGet st.messages room).getD []).find? (fun msg => msg.id == mid2) = some m →
      m.user = "anon" →
      (deleteMessage ⟨none⟩ req st room mid2 (resolveUser none) now).1 =
        DelOutcome.deleted (sysDelMsg "anon" "anon" now)) := by
  refine ⟨⟨rfl, rfl⟩, ?_, ?_, ?_, ?_⟩
  · intro h
    rw [postMessage_accepted_log st room (resolveUser none) text mid now h]
    exact capped_getLast _ _ _ (by omega)
  · intro e he
    rcases hk : isKicked st (resolveUser none) room now with ⟨k, st2⟩
    cases k
    · have hres : updateUserPresence st room (resolveUser none) now =
          (Except.ok (jsSet ((jsGet st2.users room).getD []) "anon" now),
           { st2 with
               users := jsSet st2.users room (jsSet ((jsGet st2.users room).getD []) "anon" now) }) := by
        unfold updateUserPresence
        rw [hk]
        rfl
      rw [hres]
      dsimp only
      rw [jsGet_jsSet_self, Option.getD_some]
      exact jsGet_jsSet_self _ _ _
    · have hres : updateUserPresence st room (resolveUser none) now =
          (Except.error "User is kicked from this room", st2) := by
        unfold updateUserPresence
        rw [hk]
        rfl
      rw [hres] at he
      exact Except.noConfusion he
  · unfold leaveRoom
    by_cases hp : ((jsDelete ((jsGet st.users room).getD []) (resolveUser none)).length > 0)
    · rw [if_pos hp]
      dsimp only
      rw [jsGet_jsSet_self, Option.getD_some]
      exact jsGet_jsDelete_self _ _
    · rw [if_neg hp]
      dsimp only
      rw [jsGet_jsDelete_self]
      rfl
  · intro req mid2 m hfind hm
    have hv : verifyUserPermission ⟨none⟩ req (resolveUser none) false =
        Except.ok "anon" := rfl
    unfold deleteMessage
    rw [hv]
    dsimp only
    simp only [hfind]
    rw [if_neg (by simp [hm])]
    rw [hm]

/-- Witness for `C9_anon_amended`: an accepted anonymous post is authored
"anon"; an anonymous leave removes presence key "anon"; an anonymous delete
of an anon-authored message succeeds in the no-secret configuration. -/
theorem C9_anon_amended_witness :
    resolveUser none = "anon" ∧
    ((jsGet ((postMessage emptyStorage "r" (resolveUser none) "hi" none 0).2).messages
      "r").getD []).getLast? = some (mkPostedMsg "anon" "hi" none 0) ∧
    jsGet ((jsGet ((leaveRoom ⟨[], [], [("r", [("anon", 3)])], [], [], []⟩ "r"
      (resolveUser none)).2).users "r").getD []) "anon" = none ∧
    (deleteMessage ⟨none⟩ ⟨none, none⟩
      ⟨[("r", [⟨"m1", "anon", "hi", 0, false⟩])], [], [], [], [], []⟩
      "r" "m1" (resolveUser none) 5).1 = DelOutcome.deleted (sysDelMsg "anon" "anon" 5) :=
  ⟨(C9_anon_amended emptyStorage "r" "hi" none 0).1.1,
   (C9_anon_amended emptyStorage "r" "hi" none 0).2.1 (by decide),
   (C9_anon_amended ⟨[], [], [("r", [("anon", 3)])], [], [], []⟩ "r" "hi" none 0).2.2.2.1,
   (C9_anon_amended ⟨[("r", [⟨"m1", "anon", "hi", 0, false⟩])], [], [], [], [], []⟩
      "r" "hi" none 5).2.2.2.2 ⟨none, none⟩ "m1" ⟨"m1", "anon", "hi", 0, false⟩ rfl rfl⟩

/-- C9 counterexample: with `AUTH_SECRET` configured and a valid token
asserting `X-Auth-User: Bob`, a delete request with *absent* `user` query
parameter does not act as "anon": the message authored "anon" (which the
claim says the caller owns) is rejected 403 as Unauthorized, because the
delete authorization uses the authenticated identity "Bob" instead. -/
theorem C9_anon_counterexample :
    resolveUser none = "anon" ∧
    ((jsGet ((⟨[("r", [⟨"m1", "anon", "hello", 0, false⟩])], [], [], [], [], []⟩ :
      Storage).messages) "r").getD []).find? (fun m => m.id == "m1") =
        some ⟨"m1", "anon", "hello", 0, false⟩ ∧
    deleteMessage ⟨some "sec"⟩ ⟨some "sec", some "Bob"⟩
      ⟨[("r", [⟨"m1", "anon", "hello", 0, false⟩])], [], [], [], [], []⟩
      "r" "m1" (resolveUser none) 5 =
      (DelOutcome.unauthorized,
       ⟨[("r", [⟨"m1", "anon", "hello", 0, false⟩])], [], [], [], [], []⟩) := by
  exact ⟨rfl, rfl, by decide⟩

/-! ### C10: kick presence eviction is case-sensitive -/

/-- C10: kicking `target` deletes only the presence-map key equal to
`target` as an exact, case-sensitive string — every other username, in
particular one differing only in letter case, keeps its presence entry
unchanged — while the kick record itself is keyed by the *lowercased*
target; presence maps of other rooms are untouched. -/
theorem C10_kick_exact_case (st : Storage) (room target moderator reason w r2 : String)
    (now : Int) (hw : w ≠ target) (hr : r2 ≠ room) :
    jsGet ((jsGet ((kickUser st room target moderator reason now).2).users room).getD [])
      target = none ∧
    jsGet ((jsGet ((kickUser st room target moderator reason now).2).users room).getD [])
      w = jsGet ((jsGet st.users room).getD []) w ∧
    jsGet ((jsGet ((kickUser st room target moderator reason now).2).kicked room).getD [])
      target.jsToLower = some ⟨moderator, reason, now, now + 5 * 60 * 1000⟩ ∧
    jsGet ((kickUser st room target moderator reason now).2).users r2 = jsGet st.users r2 := by
  have hus : ((kickUser st room target moderator reason now).2).users =
      jsSet st.users room (jsDelete ((jsGet st.users room).getD []) target) := rfl
  have hk : ((kickUser st room target moderator reason now).2).kicked =
      jsSet st.kicked room (jsSet ((jsGet st.kicked room).getD []) target.jsToLower
        ⟨moderator, reason, now, now + 5 * 60 * 1000⟩) := rfl
  refine ⟨?_, ?_, ?_, ?_⟩
  · rw [hus, jsGet_jsSet_self, Option.getD_some]
    exact jsGet_jsDelete_self _ _
  · rw [hus, jsGet_jsSet_self, Option.getD_some]
    exact jsGet_jsDelete_ne _ _ _ hw
  · rw [hk, jsGet_jsSet_self, Option.getD_some]
    exact jsGet_jsSet_self _ _ _
  · rw [hus]
    exact jsGet_jsSet_ne _ _ _ _ hr

/-- Witness for `C10_kick_exact_case`: kicking "bob" from a room in which
"Bob" (different case) is present leaves Bob's presence entry unchanged
while the kick record is stored under the lowercased key "bob". -/
theorem C10_kick_exact_case_witness :
    ("Bob" : String) ≠ "bob" ∧
    "Bob".jsToLower = "bob".jsToLower ∧
    jsGet ((jsGet ((kickUser ⟨[], [], [("r", [("Bob", 7)])], [], [], []⟩ "r" "bob" "nellowtcs"
      "" 0).2).users "r").getD []) "Bob" =
      jsGet ((jsGet (⟨[], [], [("r", [("Bob", 7)])], [], [], []⟩ : Storage).users "r").getD [])
        "Bob" ∧
    jsGet ((jsGet ((kickUser ⟨[], [], [("r", [("Bob", 7)])], [], [], []⟩ "r" "bob" "nellowtcs"
      "" 0).2).kicked "r").getD []) ("bob".jsToLower) =
      some ⟨"nellowtcs", "", 0, 0 + 5 * 60 * 1000⟩ :=
  ⟨by decide, rfl,
   (C10_kick_exact_case ⟨[], [], [("r", [("Bob", 7)])], [], [], []⟩ "r" "bob" "nellowtcs" ""
     "Bob" "x" 0 (by decide) (by decide)).2.1,
   (C10_kick_exact_case ⟨[], [], [("r", [("Bob", 7)])], [], [], []⟩ "r" "bob" "nellowtcs" ""
     "Bob" "x" 0 (by decide) (by decide)).2.2.1⟩
